import Mathlib

/-!
Shallow embedding of the document-ingestion pipeline (src/pipeline.py).

Strings are modelled through their character lists (`String.data`), matching
Python string semantics: `len` counts characters, slicing drops characters,
`str.endswith` and `str.startswith` are suffix/prefix tests on characters.
-/

/-- Python `s.endswith(t)`: `t` is a suffix of the character sequence of `s`. -/
def pyEndsWith (s t : String) : Bool := t.data.isSuffixOf s.data

/-- Python `s.startswith(t)`: `t` is a prefix of the character sequence of `s`. -/
def pyStartsWith (s t : String) : Bool := t.data.isPrefixOf s.data

/-- Python `s[n:]`: drop the first `n` characters. -/
def pyDrop (s : String) (n : Nat) : String := ⟨s.data.drop n⟩

/-- POSIX `os.path.join(a, b)`: if `b` is absolute the result is `b`;
otherwise `b` is appended to `a`, inserting the separator unless `a` is
empty or already ends with it. -/
def osPathJoin (a b : String) : String :=
  if pyStartsWith b "/" then b
  else if a = "" then a ++ b
  else if pyEndsWith a "/" then a ++ b
  else a ++ "/" ++ b

/-- One page returned by the paginated object listing; `contents = none`
models a page without a `Contents` field (skipped by the loop). -/
structure ListPage where
  contents : Option (List String)
deriving DecidableEq

/-- `relative_path = s3_key[len(s3_prefix):] if s3_prefix else s3_key`
(pipeline.py line 71). -/
def relativeKey (pfx key : String) : String :=
  if pfx ≠ "" then pyDrop key pfx.length else key

/-- The download calls one listing page produces: directory markers (keys
ending in the separator) are skipped, every other key is downloaded to
`osPathJoin dl (relativeKey pfx key)` (pipeline.py lines 63-80). -/
def pageDownloads (pfx dl : String) (page : ListPage) : List (String × String) :=
  match page.contents with
  | none => []
  | some keys =>
    (keys.filter (fun k => !(pyEndsWith k "/"))).map
      (fun k => (k, osPathJoin dl (relativeKey pfx k)))

/-- `download_from_s3` (pipeline.py lines 56-82): iterate the pages of the
paginated listing in order and perform the per-page downloads; the first
component is the final `downloaded_count`, the second the ordered list of
(key, local file) download calls. -/
def download_from_s3 (pages : List ListPage) (pfx dl : String) :
    Nat × List (String × String) :=
  let ds := pages.flatMap (pageDownloads pfx dl)
  (ds.length, ds)

/-- `discover_documents` (pipeline.py lines 98-103): the walk is given as the
ordered list of `(root, filenames)` pairs produced by `os.walk`; a filename is
kept when some configured extension is a suffix of it, and the full path is
`os.path.join(root, filename)`. -/
def discover_documents (walk : List (String × List String)) (exts : List String) :
    List String :=
  walk.flatMap (fun entry =>
    (entry.2.filter (fun fn => exts.any (fun e => pyEndsWith fn e))).map
      (fun fn => osPathJoin entry.1 fn))

/-- Environment outcome of processing one file path inside the ingest loop:
the local read raised, the HTTP submit raised, or the submit returned a
status code with an optional `document_id` field and a body text. -/
inductive FileOutcome where
  | readError (msg : String)
  | netError (msg : String)
  | httpResponse (status : Nat) (docId : Option String) (body : String)
deriving DecidableEq

/-- One entry of the `batch_results` list (pipeline.py lines 174-196). -/
structure PerFileResult where
  file : String
  success : Bool
  document_id : Option String
  error : Option String
deriving DecidableEq

/-- The summary dict written by `ingest_document_batch`
(pipeline.py lines 200-205). -/
structure IngestionSummary where
  total : Nat
  successful : Nat
  failed : Nat
  results : List PerFileResult
deriving DecidableEq

/-- The per-file body of the ingest loop (pipeline.py lines 144-197):
a 200/201 response is a success whose `document_id` defaults to "unknown"
when absent; any other status is a failure carrying the status and body;
a raised exception is a failure carrying its message. -/
def processFile (env : String → FileOutcome) (file_path : String) : PerFileResult :=
  match env file_path with
  | .readError msg =>
    { file := file_path, success := false, document_id := none, error := some msg }
  | .netError msg =>
    { file := file_path, success := false, document_id := none, error := some msg }
  | .httpResponse status docId body =>
    if status = 200 ∨ status = 201 then
      { file := file_path, success := true,
        document_id := some (docId.getD "unknown"), error := none }
    else
      { file := file_path, success := false, document_id := none,
        error := some ("HTTP " ++ toString status ++ ": " ++ body) }

/-- The HTTP submit calls made for one file: none when the local read raised
before `requests.post`, exactly one otherwise. -/
def submitsOf (env : String → FileOutcome) (file_path : String) : List String :=
  match env file_path with
  | .readError _ => []
  | .netError _ => [file_path]
  | .httpResponse _ _ _ => [file_path]

/-- Mutable state of the ingest loop: `batch_results`, the two counters, and
the ordered list of submit calls made so far. -/
structure IngestState where
  batch_results : List PerFileResult
  successful : Nat
  failed : Nat
  calls : List String
deriving DecidableEq

/-- One iteration of the inner `for file_path in batch` loop. -/
def stepFile (env : String → FileOutcome) (st : IngestState) (file_path : String) :
    IngestState :=
  let r := processFile env file_path
  { batch_results := st.batch_results ++ [r],
    successful := if r.success then st.successful + 1 else st.successful,
    failed := if r.success then st.failed else st.failed + 1,
    calls := st.calls ++ submitsOf env file_path }

/-- Python `range(0, stop, step)`: `none` models the `ValueError` raised for
`step = 0`; a negative step gives the empty range (since `stop ≥ 0`); a
positive step gives `0, step, 2*step, ...` below `stop`. -/
def pyRangeStep (stop : Nat) (step : Int) : Option (List Nat) :=
  if step = 0 then none
  else if step < 0 then some []
  else some ((List.range ((stop + step.toNat - 1) / step.toNat)).map
    (fun k => k * step.toNat))

/-- Python `l[start : start + len]` for `start, len ≥ 0`. -/
def pySlice (l : List String) (start len : Nat) : List String := (l.drop start).take len

/-- The batch loop of `ingest_document_batch` (pipeline.py lines 135-197):
fold the per-file step over each batch `files[i : i + batch_size]` for
`i in range(0, len(files), batch_size)`; `none` models the `ValueError`
raised by `range` when `batch_size = 0`. -/
def runIngest (env : String → FileOutcome) (files : List String) (batch_size : Int) :
    Option IngestState :=
  match pyRangeStep files.length batch_size with
  | none => none
  | some starts =>
    some (starts.foldl (fun st i => (pySlice files i batch_size.toNat).foldl (stepFile env) st)
      { batch_results := [], successful := 0, failed := 0, calls := [] })

/-- `ingest_document_batch` (pipeline.py lines 116-208): the summary written
to the results artifact, or `none` when the loop raised. -/
def ingest_document_batch (env : String → FileOutcome) (files : List String)
    (batch_size : Int) : Option IngestionSummary :=
  (runIngest env files batch_size).map (fun st =>
    { total := files.length, successful := st.successful, failed := st.failed,
      results := st.batch_results })

/-- The ordered list of HTTP submit calls the same run makes. -/
def ingestSubmits (env : String → FileOutcome) (files : List String)
    (batch_size : Int) : Option (List String) :=
  (runIngest env files batch_size).map (fun st => st.calls)

/-- The batches the loop iterates over, as a list: batch `k` is
`files[k*b : k*b + b]`, for `k` ranging over the batch starts. -/
def ingestBatches (files : List String) (b : Nat) : List (List String) :=
  (List.range ((files.length + b - 1) / b)).map (fun k => pySlice files (k * b) b)

/-! ### Helper lemmas -/

theorem processFile_file (env : String → FileOutcome) (fp : String) :
    (processFile env fp).file = fp := by
  unfold processFile
  cases env fp with
  | readError m => rfl
  | netError m => rfl
  | httpResponse st d b =>
    by_cases h : st = 200 ∨ st = 201 <;> simp [h]

theorem length_filter_add_length_not {α : Type} (p : α → Bool) (l : List α) :
    (l.filter p).length + (l.filter (fun a => !p a)).length = l.length := by
  induction l with
  | nil => rfl
  | cons a l ih =>
    by_cases h : p a <;> simp [List.filter_cons, h] <;> omega

theorem foldl_stepFile (env : String → FileOutcome) (fps : List String)
    (st : IngestState) :
    fps.foldl (stepFile env) st =
      { batch_results := st.batch_results ++ fps.map (processFile env),
        successful :=
          st.successful + (fps.filter (fun fp => (processFile env fp).success)).length,
        failed :=
          st.failed + (fps.filter (fun fp => !(processFile env fp).success)).length,
        calls := st.calls ++ fps.flatMap (submitsOf env) } := by
  induction fps generalizing st with
  | nil => simp
  | cons fp fps ih =>
    rw [List.foldl_cons, ih]
    by_cases h : (processFile env fp).success <;>
      simp [stepFile, h, List.filter_cons] <;> omega

theorem foldl_batches (env : String → FileOutcome) (files : List String) (b : Nat)
    (starts : List Nat) (st : IngestState) :
    starts.foldl (fun s i => (pySlice files i b).foldl (stepFile env) s) st =
      (starts.flatMap (fun i => pySlice files i b)).foldl (stepFile env) st := by
  induction starts generalizing st with
  | nil => rfl
  | cons i starts ih => rw [List.foldl_cons, ih, List.flatMap_cons, List.foldl_append]

theorem ceil_div_succ (N b : Nat) (hb : 0 < b) (hN : 0 < N) :
    (N + b - 1) / b = (N - b + b - 1) / b + 1 := by
  by_cases h : b ≤ N
  · have e1 : N + b - 1 = (N - 1) + b := by omega
    have e2 : N - b + b - 1 = N - 1 := by omega
    rw [e1, e2, Nat.add_div_right _ hb]
  · have e2 : N - b = 0 := by omega
    rw [e2]
    have e3 : (0 + b - 1) / b = 0 := Nat.div_eq_of_lt (by omega)
    rw [e3]
    exact Nat.div_eq_of_lt_le (by omega) (by omega)

theorem ingestBatches_flatten_aux :
    ∀ (n : Nat) (files : List String), files.length = n → ∀ b, 0 < b →
      (ingestBatches files b).flatten = files := by
  intro n
  induction n using Nat.strong_induction_on with
  | _ n ih =>
    intro files hn b hb
    by_cases he : files.length = 0
    · have : files = [] := List.length_eq_zero.mp he
      subst this
      simp [ingestBatches, Nat.div_eq_of_lt (show b - 1 < b by omega)]
    · have hN : 0 < files.length := Nat.pos_of_ne_zero he
      have hK : (files.length + b - 1) / b = ((files.drop b).length + b - 1) / b + 1 := by
        rw [List.length_drop]
        exact ceil_div_succ files.length b hb hN
      have hmap : ∀ k ∈ List.range (((files.drop b).length + b - 1) / b),
          pySlice files (Nat.succ k * b) b = pySlice (files.drop b) (k * b) b := by
        intro k _
        unfold pySlice
        rw [List.drop_drop]
        have : b + k * b = Nat.succ k * b := by
          rw [Nat.succ_mul]; omega
        rw [this]
      rw [ingestBatches, hK, List.range_succ_eq_map, List.map_cons, List.map_map,
        List.flatten_cons]
      have : List.map ((fun k => pySlice files (k * b) b) ∘ Nat.succ)
            (List.range (((files.drop b).length + b - 1) / b)) =
          List.map (fun k => pySlice (files.drop b) (k * b) b)
            (List.range (((files.drop b).length + b - 1) / b)) :=
        List.map_congr_left hmap
      rw [this]
      have hrec : (ingestBatches (files.drop b) b).flatten = files.drop b :=
        ih (files.drop b).length (by rw [List.length_drop]; omega) (files.drop b) rfl b hb
      unfold ingestBatches at hrec
      rw [hrec]
      simp [pySlice]

theorem runIngest_eq (env : String → FileOutcome) (files : List String) (b : Int)
    (hb : 0 < b) :
    runIngest env files b = some
      { batch_results := files.map (processFile env),
        successful := (files.filter (fun fp => (processFile env fp).success)).length,
        failed := (files.filter (fun fp => !(processFile env fp).success)).length,
        calls := files.flatMap (submitsOf env) } := by
  have hbz : ¬ b = 0 := by omega
  have hbn : ¬ b < 0 := by omega
  have hbt : 0 < b.toNat := by omega
  have hr : pyRangeStep files.length b = some ((List.range
      ((files.length + b.toNat - 1) / b.toNat)).map (fun k => k * b.toNat)) := by
    unfold pyRangeStep
    rw [if_neg hbz, if_neg hbn]
  have hcover : (List.range ((files.length + b.toNat - 1) / b.toNat)).flatMap
      (fun k => pySlice files (k * b.toNat) b.toNat) = files := by
    rw [List.flatMap_def]
    exact ingestBatches_flatten_aux files.length files rfl b.toNat hbt
  unfold runIngest
  rw [hr]
  dsimp only
  rw [foldl_batches, List.flatMap_map, hcover, foldl_stepFile]
  simp

/-- The summary `ingest_document_batch` produces for any positive batch size:
one result per file in discovery order, counters counting the successes and
failures among them. -/
theorem ingest_eq (env : String → FileOutcome) (files : List String) (b : Int)
    (hb : 0 < b) :
    ingest_document_batch env files b = some
      { total := files.length,
        successful := (files.filter (fun fp => (processFile env fp).success)).length,
        failed := (files.filter (fun fp => !(processFile env fp).success)).length,
        results := files.map (processFile env) } := by
  unfold ingest_document_batch
  rw [runIngest_eq env files b hb]
  rfl

theorem map_file_processFile (env : String → FileOutcome) (files : List String) :
    (files.map (processFile env)).map (fun r => r.file) = files := by
  rw [List.map_map]
  have h : List.map ((fun r : PerFileResult => r.file) ∘ processFile env) files
      = List.map (fun fp => fp) files :=
    List.map_congr_left (fun fp _ => processFile_file env fp)
  rw [h, List.map_id']

/-- Whether the environment outcome of a file is one of the per-file failure
conditions: a local read error, a network error, or a non-200/201 status. -/
def outcomeFails : FileOutcome → Bool
  | .readError _ => true
  | .netError _ => true
  | .httpResponse status _ _ => if status = 200 ∨ status = 201 then false else true

theorem processFile_fail (env : String → FileOutcome) (fp : String)
    (h : outcomeFails (env fp) = true) :
    (processFile env fp).success = false ∧ (processFile env fp).error ≠ none := by
  cases henv : env fp with
  | readError m => simp [processFile, henv]
  | netError m => simp [processFile, henv]
  | httpResponse st d bo =>
    rw [henv] at h
    by_cases hst : st = 200 ∨ st = 201
    · simp [outcomeFails, hst] at h
    · simp [processFile, henv, hst]

/-- Sample environment: every submit returns HTTP 200 with a document id. -/
def envAll200 : String → FileOutcome :=
  fun _ => FileOutcome.httpResponse 200 (some "doc-1") "ok"

/-- Sample environment mixing an HTTP 500, a local read error, and a success. -/
def envMixed : String → FileOutcome := fun fp =>
  if fp = "a.md" then FileOutcome.httpResponse 500 none "server error"
  else if fp = "b.md" then FileOutcome.readError "invalid utf-8 byte"
  else FileOutcome.httpResponse 200 (some "id-3") "ok"

/-- C1: for every discovered-file list and every batch size B > 0, the
Ingestion Summary satisfies successful + failed = total = len(results), and
the results list contains exactly one Per-File Result per discovered file,
in discovery order. -/
theorem c1_summary_invariant (env : String → FileOutcome) (files : List String)
    (b : Int) (hb : 0 < b) :
    ∃ s, ingest_document_batch env files b = some s ∧
      s.successful + s.failed = s.total ∧
      s.total = s.results.length ∧
      s.results.map (fun r => r.file) = files := by
  refine ⟨_, ingest_eq env files b hb, ?_, ?_, ?_⟩
  · exact length_filter_add_length_not _ files
  · simp
  · exact map_file_processFile env files

/-- Witness for C1 on a concrete three-file run with batch size 2 where one
file gets HTTP 500 and one fails to read. -/
theorem c1_witness :
    (0 : Int) < 2 ∧
    ∃ s, ingest_document_batch envMixed ["a.md", "b.md", "c.md"] 2 = some s ∧
      s.successful + s.failed = s.total ∧
      s.total = s.results.length ∧
      s.results.map (fun r => r.file) = ["a.md", "b.md", "c.md"] :=
  ⟨by decide, c1_summary_invariant envMixed ["a.md", "b.md", "c.md"] 2 (by decide)⟩

/-- C2: every per-file failure (non-2xx status, network error, local read
error) is recorded as a failure entry carrying a cause, and processing
continues: every discovered file still gets exactly one result. -/
theorem c2_failure_isolation (env : String → FileOutcome) (files : List String)
    (b : Int) (hb : 0 < b) :
    ∃ s, ingest_document_batch env files b = some s ∧
      s.results.map (fun r => r.file) = files ∧
      ∀ r ∈ s.results, outcomeFails (env r.file) = true →
        r.success = false ∧ r.error ≠ none := by
  refine ⟨_, ingest_eq env files b hb, map_file_processFile env files, ?_⟩
  intro r hr
  rw [List.mem_map] at hr
  obtain ⟨fp, _, rfl⟩ := hr
  rw [processFile_file]
  exact processFile_fail env fp

/-- Witness for C2: with an HTTP 500 on the first file and a read error on
the second, the run still produces one result per file. -/
theorem c2_witness :
    (0 : Int) < 2 ∧
    ∃ s, ingest_document_batch envMixed ["a.md", "b.md", "c.md"] 2 = some s ∧
      s.results.map (fun r => r.file) = ["a.md", "b.md", "c.md"] ∧
      ∀ r ∈ s.results, outcomeFails (envMixed r.file) = true →
        r.success = false ∧ r.error ≠ none :=
  ⟨by decide, c2_failure_isolation envMixed ["a.md", "b.md", "c.md"] 2 (by decide)⟩

/-- C5: a 200 or 201 response is recorded as a success whose document id is
taken from the response body, defaulting to "unknown" when absent. -/
theorem c5_success_extraction (env : String → FileOutcome) (fp : String)
    (status : Nat) (docId : Option String) (body : String)
    (henv : env fp = FileOutcome.httpResponse status docId body)
    (hst : status = 200 ∨ status = 201) :
    processFile env fp =
      { file := fp, success := true, document_id := some (docId.getD "unknown"),
        error := none } := by
  simp [processFile, henv, hst]

/-- Witness for C5: a 200 response without a document id is a success with
the sentinel id "unknown". -/
theorem c5_witness :
    processFile (fun _ => FileOutcome.httpResponse 200 none "ok") "a.md" =
      { file := "a.md", success := true, document_id := some "unknown",
        error := none } :=
  c5_success_extraction (fun _ => FileOutcome.httpResponse 200 none "ok") "a.md"
    200 none "ok" rfl (Or.inl rfl)

/-- C8: on an empty discovered-file list and a positive batch size the
ingestor makes no submit calls and emits the all-zero summary. -/
theorem c8_empty_input (env : String → FileOutcome) (b : Int) (hb : 0 < b) :
    ingest_document_batch env [] b =
      some { total := 0, successful := 0, failed := 0, results := [] } ∧
    ingestSubmits env [] b = some [] := by
  constructor
  · rw [ingest_eq env [] b hb]
    rfl
  · unfold ingestSubmits
    rw [runIngest_eq env [] b hb]
    rfl

/-- Witness for C8 at batch size 10. -/
theorem c8_witness :
    ingest_document_batch envAll200 [] 10 =
      some { total := 0, successful := 0, failed := 0, results := [] } ∧
    ingestSubmits envAll200 [] 10 = some [] :=
  c8_empty_input envAll200 10 (by decide)

/-- C10: batch size 0 raises before any summary is emitted, while a negative
batch size yields an empty iteration and a summary with the full total but
zero successes, zero failures and no results. -/
theorem c10_batch_size_guard (env : String → FileOutcome) (files : List String)
    (_hne : files ≠ []) :
    ingest_document_batch env files 0 = none ∧
    ∀ b : Int, b < 0 → ingest_document_batch env files b =
      some { total := files.length, successful := 0, failed := 0, results := [] } := by
  constructor
  · rfl
  · intro b hb
    unfold ingest_document_batch runIngest pyRangeStep
    rw [if_neg (by omega : ¬ b = 0), if_pos hb]
    rfl

/-- Witness for C10 on a one-file list with batch sizes 0 and -3. -/
theorem c10_witness :
    ingest_document_batch envAll200 ["a.md"] 0 = none ∧
    ingest_document_batch envAll200 ["a.md"] (-3) =
      some { total := 1, successful := 0, failed := 0, results := [] } := by
  have h := c10_batch_size_guard envAll200 ["a.md"] (by decide)
  exact ⟨h.1, h.2 (-3) (by decide)⟩

theorem ingestBatches_get (files : List String) (b : Nat) (i : Nat)
    (hi : i < (ingestBatches files b).length) :
    (ingestBatches files b).get ⟨i, hi⟩ = pySlice files (i * b) b := by
  rw [List.get_eq_getElem]
  simp [ingestBatches]

theorem ingestBatches_length (files : List String) (b : Nat) :
    (ingestBatches files b).length = (files.length + b - 1) / b := by
  simp [ingestBatches]

/-- C3: for every file list of length N and batch size B > 0, the ingest loop
iterates over exactly ceil(N/B) contiguous non-overlapping batches in list
order (their concatenation is the list itself), each of size at most B, with
sizes summing to N; every non-final batch has exactly B items, and when B
does not divide N the final batch has the short size N mod B. -/
theorem c3_batch_partition (files : List String) (b : Nat) (hb : 0 < b) :
    (ingestBatches files b).length = (files.length + b - 1) / b ∧
    (ingestBatches files b).flatten = files ∧
    ((ingestBatches files b).map List.length).sum = files.length ∧
    (∀ batch ∈ ingestBatches files b, batch.length ≤ b) ∧
    (∀ i, ∀ hi : i < (ingestBatches files b).length,
      i + 1 < (ingestBatches files b).length →
        ((ingestBatches files b).get ⟨i, hi⟩).length = b) ∧
    (¬ b ∣ files.length →
      ∀ hl : (ingestBatches files b).length - 1 < (ingestBatches files b).length,
        ((ingestBatches files b).get
            ⟨(ingestBatches files b).length - 1, hl⟩).length =
          files.length % b) := by
  have hflat := ingestBatches_flatten_aux files.length files rfl b hb
  refine ⟨ingestBatches_length files b, hflat, ?_, ?_, ?_, ?_⟩
  · rw [← List.length_flatten, hflat]
  · intro batch hbm
    unfold ingestBatches at hbm
    rw [List.mem_map] at hbm
    obtain ⟨k, _, rfl⟩ := hbm
    exact List.length_take_le _ _
  · intro i hi h2
    rw [ingestBatches_get]
    rw [ingestBatches_length] at h2
    have hmul : (i + 2) * b ≤ files.length + b - 1 :=
      (Nat.le_div_iff_mul_le hb).mp h2
    rw [Nat.add_mul] at hmul
    unfold pySlice
    rw [List.length_take, List.length_drop]
    generalize i * b = m at hmul ⊢
    omega
  · intro hdvd hl
    have hr0 : files.length % b ≠ 0 :=
      fun h0 => hdvd (Nat.dvd_iff_mod_eq_zero.mpr h0)
    have hdm := Nat.div_add_mod files.length b
    have hrb : files.length % b < b := Nat.mod_lt _ hb
    have hK1 : (files.length + b - 1) / b = files.length / b + 1 := by
      have e : files.length + b - 1 =
          b * (files.length / b + 1) + (files.length % b - 1) := by
        rw [Nat.mul_add, Nat.mul_one]
        generalize b * (files.length / b) = A at hdm ⊢
        generalize files.length % b = r at hdm hr0 hrb ⊢
        omega
      rw [e, Nat.mul_add_div hb, Nat.div_eq_of_lt (by omega : files.length % b - 1 < b)]
    rw [ingestBatches_get, ingestBatches_length, hK1, Nat.add_sub_cancel]
    unfold pySlice
    rw [List.length_take, List.length_drop]
    have hq : files.length / b * b = b * (files.length / b) := Nat.mul_comm _ _
    rw [hq]
    generalize b * (files.length / b) = A at hdm ⊢
    generalize files.length % b = r at hdm hr0 hrb ⊢
    omega

/-- Witness for C3: three files in batches of two give two batches whose
concatenation is the original list. -/
theorem c3_witness :
    (ingestBatches ["a.md", "b.md", "c.md"] 2).flatten = ["a.md", "b.md", "c.md"] ∧
    (ingestBatches ["a.md", "b.md", "c.md"] 2).length = 2 := by
  have h := c3_batch_partition ["a.md", "b.md", "c.md"] 2 (by decide)
  exact ⟨h.2.1, by rw [h.1]; rfl⟩

/-- C4: the discoverer output contains the path built from a walk entry and a
filename exactly when some configured extension is a case-sensitive exact
suffix of that filename. -/
theorem c4_discover_filter (walk : List (String × List String)) (exts : List String) :
    (∀ root fns, (root, fns) ∈ walk → ∀ fn ∈ fns,
      exts.any (fun e => pyEndsWith fn e) = true →
      osPathJoin root fn ∈ discover_documents walk exts) ∧
    (∀ p ∈ discover_documents walk exts, ∃ root fns fn,
      (root, fns) ∈ walk ∧ fn ∈ fns ∧
      exts.any (fun e => pyEndsWith fn e) = true ∧ p = osPathJoin root fn) := by
  constructor
  · intro root fns hmem fn hfn hmatch
    unfold discover_documents
    rw [List.mem_flatMap]
    exact ⟨(root, fns), hmem,
      List.mem_map_of_mem _ (List.mem_filter.mpr ⟨hfn, hmatch⟩)⟩
  · intro p hp
    unfold discover_documents at hp
    rw [List.mem_flatMap] at hp
    obtain ⟨⟨root, fns⟩, hmem, hp⟩ := hp
    rw [List.mem_map] at hp
    obtain ⟨fn, hfn, rfl⟩ := hp
    rw [List.mem_filter] at hfn
    exact ⟨root, fns, fn, hmem, hfn.1, hfn.2, rfl⟩

/-- Witness for C4: with only ".md" configured, "a.md" is discovered while
the near-miss "b.markdown" is not. -/
theorem c4_witness :
    "/docs/a.md" ∈ discover_documents [("/docs", ["a.md", "b.markdown"])] [".md"] ∧
    "/docs/b.markdown" ∉ discover_documents [("/docs", ["a.md", "b.markdown"])] [".md"] :=
  ⟨(c4_discover_filter [("/docs", ["a.md", "b.markdown"])] [".md"]).1
      "/docs" ["a.md", "b.markdown"] (by decide) "a.md" (by decide) (by decide),
    by decide⟩

/-- The number of objects of one listing page that are not directory markers. -/
def pageNonMarkers (page : ListPage) : Nat :=
  match page.contents with
  | none => 0
  | some keys => (keys.filter (fun k => !(pyEndsWith k "/"))).length

/-- C6: the sync consumes every page of the paginated listing: the download
count is the sum over all pages of their non-marker objects, no downloaded
key ends in the path separator, and every non-marker key of every page is
downloaded. -/
theorem c6_pagination (pages : List ListPage) (pfx dl : String) :
    (download_from_s3 pages pfx dl).1 = (pages.map pageNonMarkers).sum ∧
    (∀ d ∈ (download_from_s3 pages pfx dl).2, pyEndsWith d.1 "/" = false) ∧
    (∀ page ∈ pages, ∀ keys, page.contents = some keys → ∀ k ∈ keys,
      pyEndsWith k "/" = false →
      k ∈ (download_from_s3 pages pfx dl).2.map Prod.fst) := by
  refine ⟨?_, ?_, ?_⟩
  · show (pages.flatMap (pageDownloads pfx dl)).length = _
    rw [List.length_flatMap]
    congr 1
    apply List.map_congr_left
    intro page _
    show (pageDownloads pfx dl page).length = pageNonMarkers page
    unfold pageDownloads pageNonMarkers
    cases page.contents with
    | none => rfl
    | some keys => rw [List.length_map]
  · intro d hd
    replace hd : d ∈ pages.flatMap (pageDownloads pfx dl) := hd
    rw [List.mem_flatMap] at hd
    obtain ⟨page, _, hd⟩ := hd
    unfold pageDownloads at hd
    cases hc : page.contents with
    | none => rw [hc] at hd; simp at hd
    | some keys =>
      rw [hc] at hd
      rw [List.mem_map] at hd
      obtain ⟨k, hk, rfl⟩ := hd
      rw [List.mem_filter] at hk
      simpa using hk.2
  · intro page hpage keys hkeys k hk hnm
    show k ∈ (pages.flatMap (pageDownloads pfx dl)).map Prod.fst
    have hd : (k, osPathJoin dl (relativeKey pfx k)) ∈
        pages.flatMap (pageDownloads pfx dl) := by
      rw [List.mem_flatMap]
      refine ⟨page, hpage, ?_⟩
      unfold pageDownloads
      rw [hkeys]
      exact List.mem_map_of_mem _
        (List.mem_filter.mpr ⟨hk, by rw [hnm]; rfl⟩)
    exact List.mem_map_of_mem Prod.fst hd

/-- Witness for C6: a two-page listing with a directory marker on the first
page downloads the three real objects and never the marker. -/
theorem c6_witness :
    (download_from_s3 [⟨some ["kb/a.md", "kb/sub/"]⟩, ⟨some ["kb/b.md", "kb/c.md"]⟩]
        "kb/" "/tmp/documents").1 = 3 ∧
    "kb/sub/" ∉ ((download_from_s3
        [⟨some ["kb/a.md", "kb/sub/"]⟩, ⟨some ["kb/b.md", "kb/c.md"]⟩]
        "kb/" "/tmp/documents").2.map Prod.fst) := by
  have h := c6_pagination [⟨some ["kb/a.md", "kb/sub/"]⟩, ⟨some ["kb/b.md", "kb/c.md"]⟩]
    "kb/" "/tmp/documents"
  refine ⟨?_, by decide⟩
  rw [h.1]
  decide

theorem relativeKey_append (pfx rest : String) (h : pfx ≠ "") :
    relativeKey pfx (pfx ++ rest) = rest := by
  unfold relativeKey pyDrop
  rw [if_pos h, String.data_append]
  have hlen : pfx.length = pfx.data.length := rfl
  rw [hlen, List.drop_left]

theorem pyStartsWith_append (t s : String) : pyStartsWith (t ++ s) t = true := by
  unfold pyStartsWith
  rw [String.data_append, List.isPrefixOf_iff_prefix]
  exact List.prefix_append _ _

/-- C7: the relative path is the key with the supplied prefix stripped from
its front when the prefix is non-empty, and the full key unchanged when the
prefix is empty. -/
theorem c7_relative_path (pfx rest key : String) :
    (pfx ≠ "" → relativeKey pfx (pfx ++ rest) = rest) ∧
    relativeKey "" key = key := by
  constructor
  · exact relativeKey_append pfx rest
  · unfold relativeKey
    simp

/-- Witness for C7 on the spec example: key "prefix/sub/file.txt" with key
prefix "prefix/" gives "sub/file.txt", and with the empty prefix the key is
unchanged. -/
theorem c7_witness :
    relativeKey "prefix/" "prefix/sub/file.txt" = "sub/file.txt" ∧
    relativeKey "" "prefix/sub/file.txt" = "prefix/sub/file.txt" := by
  have h := c7_relative_path "prefix/" "sub/file.txt" "prefix/sub/file.txt"
  refine ⟨?_, h.2⟩
  have h1 := h.1 (by decide)
  rw [show ("prefix/" ++ "sub/file.txt" : String) = "prefix/sub/file.txt" from rfl] at h1
  exact h1

/-- C9: with a non-empty key prefix that does not end in the separator, a key
of the form prefix ++ "/" ++ rest gets the relative path "/" ++ rest, which
starts with the separator; joining it to the download directory returns it
unchanged, discarding the download directory, so the written path lies
outside the destination tree whenever "/" ++ rest does not start with it. -/
theorem c9_path_escape (pfx rest dl : String) (h1 : pfx ≠ "")
    (_h2 : pyEndsWith pfx "/" = false)
    (h3 : pyStartsWith ("/" ++ rest) dl = false) :
    relativeKey pfx (pfx ++ ("/" ++ rest)) = "/" ++ rest ∧
    pyStartsWith (relativeKey pfx (pfx ++ ("/" ++ rest))) "/" = true ∧
    osPathJoin dl (relativeKey pfx (pfx ++ ("/" ++ rest))) = "/" ++ rest ∧
    pyStartsWith (osPathJoin dl (relativeKey pfx (pfx ++ ("/" ++ rest)))) dl = false := by
  have hrel : relativeKey pfx (pfx ++ ("/" ++ rest)) = "/" ++ rest :=
    relativeKey_append pfx ("/" ++ rest) h1
  have hstart : pyStartsWith ("/" ++ rest) "/" = true := pyStartsWith_append "/" rest
  have hjoin : osPathJoin dl ("/" ++ rest) = "/" ++ rest := by
    unfold osPathJoin
    rw [if_pos hstart]
  refine ⟨hrel, ?_, ?_, ?_⟩
  · rw [hrel]; exact hstart
  · rw [hrel]; exact hjoin
  · rw [hrel, hjoin]; exact h3

/-- Witness for C9: prefix "kb" (no trailing separator) and key
"kb/sub/file.txt" send the file to the absolute path "/sub/file.txt",
outside the download directory "/tmp/documents". -/
theorem c9_witness :
    relativeKey "kb" ("kb" ++ ("/" ++ "sub/file.txt")) = "/" ++ "sub/file.txt" ∧
    pyStartsWith (relativeKey "kb" ("kb" ++ ("/" ++ "sub/file.txt"))) "/" = true ∧
    osPathJoin "/tmp/documents" (relativeKey "kb" ("kb" ++ ("/" ++ "sub/file.txt"))) =
      "/" ++ "sub/file.txt" ∧
    pyStartsWith
      (osPathJoin "/tmp/documents" (relativeKey "kb" ("kb" ++ ("/" ++ "sub/file.txt"))))
      "/tmp/documents" = false :=
  c9_path_escape "kb" "sub/file.txt" "/tmp/documents" (by decide) (by decide) (by decide)
